import Mathlib

/-!
Verification development for the QuantForge equity data connectors
(src/connectors.py). The Python module is shallowly embedded:

* `datetime` / `time.time()` values are modelled as rational epoch seconds
  (`ℚ`); `timedelta(days = d)` is `86400 * d` seconds.
* Python floats are modelled as `ℚ`; provider HTTP responses are modelled
  as structures holding already-decoded JSON payloads, with `Option` fields
  standing for keys that may be absent (dict `.get` with a default) or for
  values whose parse (`strptime` / `float` / `int`) may fail, in which case
  the surrounding `try/except KeyError, ValueError: continue` skips the bar.
* `time.sleep` is modelled by returning the slept duration; raising an
  exception is modelled with `Except`.
-/

/-- `OHLCVData` dataclass (src/connectors.py lines 34-46).  `timestamp` is
epoch seconds as `ℚ`; `adj_close` keeps the Python default `None` as
`Option.none`. -/
structure OHLCVData where
  timestamp : ℚ
  ticker : String
  interval : String
  «open» : ℚ
  high : ℚ
  low : ℚ
  close : ℚ
  volume : ℤ
  adj_close : Option ℚ := none
  source : String := "unknown"
deriving DecidableEq, Repr

/-- Lookup of `self._request_times[key]` in `RateLimiter`, with the
`if key not in self._request_times: ... = []` initialisation folded in. -/
def lookupTimes (d : List (String × List ℚ)) (key : String) : List ℚ :=
  match d.find? (fun p => p.1 == key) with
  | some p => p.2
  | none => []

/-- Store `self._request_times[key] = ts` (insert or replace). -/
def updateTimes (d : List (String × List ℚ)) (key : String) (ts : List ℚ) :
    List (String × List ℚ) :=
  if d.any (fun p => p.1 == key) then
    d.map (fun p => if p.1 == key then (key, ts) else p)
  else d ++ [(key, ts)]

/-- `RateLimiter` (src/connectors.py lines 53-78): `requests_per_window`,
`window_seconds`, and the per-key request-timestamp dictionary. -/
structure RateLimiter where
  requests_per_window : ℕ
  window_seconds : ℚ
  request_times : List (String × List ℚ)
deriving DecidableEq, Repr

/-- The timestamps for `key` that survive the cleaning step of
`wait_if_needed`: entries `t` with `t > now - window_seconds`
(line 69 of src/connectors.py). -/
def survivingTimes (rl : RateLimiter) (key : String) (now : ℚ) : List ℚ :=
  (lookupTimes rl.request_times key).filter
    (fun t => decide (now - rl.window_seconds < t))

/-- The duration `wait_if_needed` passes to `time.sleep` (0 when no sleep
happens): when the surviving count is at the limit, `sleep_time` is
`times[0] - cutoff + 0.1` if that is positive (src/connectors.py lines
72-76, with `sleep_time` written out in place of the local variable).  The
Python code indexes `[0]` into the surviving list (line 73), which raises
`IndexError` on an empty list; that unreachable case (it needs
`requests_per_window = 0`) is modelled with `List.headD 0`. -/
def sleep_time (rl : RateLimiter) (key : String) (now : ℚ) : ℚ :=
  if rl.requests_per_window ≤ (survivingTimes rl key now).length then
    if 0 < (survivingTimes rl key now).headD 0 - (now - rl.window_seconds) + 1 / 10
    then (survivingTimes rl key now).headD 0 - (now - rl.window_seconds) + 1 / 10
    else 0
  else 0

/-- `RateLimiter.wait_if_needed` (src/connectors.py lines 61-78).  Returns
the duration passed to `time.sleep` together with the updated limiter state
(the surviving timestamps with `now` — captured before the sleep —
appended). -/
def wait_if_needed (rl : RateLimiter) (key : String) (now : ℚ) :
    ℚ × RateLimiter :=
  (sleep_time rl key now,
   { rl with
       request_times :=
         updateTimes rl.request_times key (survivingTimes rl key now ++ [now]) })

/-- Whether an `Except` value is a success (`Except.ok`).  Python analogue:
the wrapped call returned rather than raised. -/
def exceptIsOk {E A : Type} : Except E A → Bool
  | Except.ok _ => true
  | Except.error _ => false

/-- The loop body of the `wrapper` produced by `retry_with_backoff`
(src/connectors.py lines 84-94), started at loop index `i`.  `f j` is the
outcome of invocation number `j` of the wrapped function (`Except.error`
models a raised exception).  The first component is `some` of the returned
or re-raised outcome, or `none` when the `for` loop falls through to the
trailing `return []` (only possible when `maxRetries = 0`); the second
component lists the durations slept between attempts
(`base_delay * 2 ** attempt`). -/
def retryFrom {E A : Type} (f : ℕ → Except E A) (maxRetries : ℕ)
    (baseDelay : ℚ) (i : ℕ) : Option (Except E A) × List ℚ :=
  if _h : i < maxRetries then
    match f i with
    | Except.ok v => (some (Except.ok v), [])
    | Except.error e =>
      if i = maxRetries - 1 then (some (Except.error e), [])
      else
        ((retryFrom f maxRetries baseDelay (i + 1)).1,
         baseDelay * 2 ^ i :: (retryFrom f maxRetries baseDelay (i + 1)).2)
  else (none, [])
termination_by maxRetries - i

/-- `retry_with_backoff(max_retries, base_delay)` applied to a function whose
attempt outcomes are `f` (src/connectors.py lines 81-96). -/
def retry_with_backoff {E A : Type} (maxRetries : ℕ) (baseDelay : ℚ)
    (f : ℕ → Except E A) : Option (Except E A) × List ℚ :=
  retryFrom f maxRetries baseDelay 0

/-- A connector as seen by `fetch_with_fallback`: its `SOURCE_NAME`, its
`SUPPORTED_INTERVALS`, and its `fetch_ohlcv` behaviour on given arguments
(`Except.error` models `fetch_ohlcv` raising). -/
structure Connector where
  source_name : String
  supported_intervals : List String
  fetch : String → String → ℤ → Except String (List OHLCVData)

/-- The provider loop of `fetch_with_fallback` (src/connectors.py lines
664-676).  Besides the returned list it computes the instrumentation trace:
the positions (0-based, within the full connector list) of the connectors
whose `fetch_ohlcv` was actually invoked. -/
def fwfGo (ticker interval : String) (lookback : ℤ) :
    List Connector → List OHLCVData × List ℕ
  | [] => ([], [])
  | c :: rest =>
    if interval ∈ c.supported_intervals then
      match c.fetch ticker interval lookback with
      | Except.ok data =>
        if data.isEmpty then
          ((fwfGo ticker interval lookback rest).1,
           0 :: (fwfGo ticker interval lookback rest).2.map (fun j => j + 1))
        else (data, [0])
      | Except.error _ =>
        ((fwfGo ticker interval lookback rest).1,
         0 :: (fwfGo ticker interval lookback rest).2.map (fun j => j + 1))
    else
      ((fwfGo ticker interval lookback rest).1,
       (fwfGo ticker interval lookback rest).2.map (fun j => j + 1))

/-- `fetch_with_fallback` (src/connectors.py lines 656-676), over the ordered
list of available connectors. -/
def fetch_with_fallback (connectors : List Connector)
    (ticker interval : String) (lookback : ℤ) : List OHLCVData :=
  (fwfGo ticker interval lookback connectors).1

/-- Outcome of a provider's `fetch_ohlcv` body together with its observable
effects: the records returned, the number of outbound HTTP requests issued,
and the provider's rate-limiter state after the call. -/
structure FetchEffects where
  records : List OHLCVData
  http_calls : ℕ
  limiter : RateLimiter
deriving Repr

/-- The comparison passed to the stable sort `result.sort(key = ...)` used by
the providers that sort: compare records by `timestamp`. -/
def byTimestamp (a b : OHLCVData) : Bool :=
  decide (a.timestamp ≤ b.timestamp)

/-- Python's `ticker.upper()`: uppercase every character.  (Structurally
recursive restatement of `String.toUpper`, so that concrete instances
evaluate.) -/
def pyUpper (s : String) : String := String.mk (s.data.map Char.toUpper)

/-- One value-dict of an Alpha Vantage time series entry.  Field `openField`
models key "1. open", `highField` "2. high", `lowField` "3. low",
`closeField` "4. close", `volume6Field` "6. volume", `volume5Field`
"5. volume", `adjCloseField` "5. adjusted close"; `none` means the key is
absent (the code reads them with `.get` and a default). -/
structure AVValues where
  openField : Option ℚ
  highField : Option ℚ
  lowField : Option ℚ
  closeField : Option ℚ
  volume6Field : Option ℤ
  volume5Field : Option ℤ
  adjCloseField : Option ℚ
deriving DecidableEq, Repr

/-- One entry of the Alpha Vantage time series dict.  `dateTs` is the result
of `datetime.strptime(date_str.split()[0], "%Y-%m-%d")` on the entry's key,
as epoch seconds; `none` models a `ValueError` (the entry is skipped). -/
structure AVEntry where
  dateTs : Option ℚ
  values : AVValues
deriving DecidableEq, Repr

/-- The decoded Alpha Vantage HTTP response: status code and
`data.get(data_key, {})` as an ordered list of entries. -/
structure AVResponse where
  status_code : ℤ
  time_series : List AVEntry
deriving DecidableEq, Repr

/-- The loop body of `AlphaVantageConnector.fetch_ohlcv` for one time-series
entry (src/connectors.py lines 235-251): skip on unparseable date
(`ValueError`) or a date older than the cutoff; otherwise build the record,
with missing numeric keys defaulting to 0 and `adj_close` falling back from
"5. adjusted close" to "4. close". -/
def av_bar (ticker interval : String) (cutoff : ℚ) (e : AVEntry) :
    Option OHLCVData :=
  match e.dateTs with
  | none => none
  | some ts =>
    if ts < cutoff then none
    else some
      { timestamp := ts
        ticker := pyUpper ticker
        interval := interval
        «open» := e.values.openField.getD 0
        high := e.values.highField.getD 0
        low := e.values.lowField.getD 0
        close := e.values.closeField.getD 0
        volume := e.values.volume6Field.getD (e.values.volume5Field.getD 0)
        adj_close :=
          some (e.values.adjCloseField.getD (e.values.closeField.getD 0))
        source := "alpha_vantage" }

/-- `AlphaVantageConnector.fetch_ohlcv` (src/connectors.py lines 204-254),
with the HTTP response supplied as data.  `now` is the value of
`datetime.now()` in epoch seconds.  Mirrors the code: empty key short-
circuits before the rate limiter; non-200 returns `[]`; each entry goes
through `av_bar` with `cutoff = now - lookback_days` days; the result is
stably sorted by timestamp. -/
def alpha_vantage_fetch_ohlcv (api_key : String) (rl : RateLimiter)
    (resp : AVResponse) (ticker interval : String) (now : ℚ)
    (lookback_days : ℤ) : FetchEffects :=
  if api_key = "" then ⟨[], 0, rl⟩ else
  let rl1 := (wait_if_needed rl ticker now).2
  if resp.status_code ≠ 200 then ⟨[], 1, rl1⟩ else
  let result := resp.time_series.filterMap
    (av_bar ticker interval (now - 86400 * (lookback_days : ℚ)))
  ⟨result.mergeSort byTimestamp, 1, rl1⟩

/-- The decoded Finnhub candle response (src/connectors.py lines 300-313):
status code, the "s" status field, and the parallel arrays "t", "o", "h",
"l", "c", "v". -/
structure FinnhubResponse where
  status_code : ℤ
  s : String
  t : List ℚ
  o : List ℚ
  h : List ℚ
  l : List ℚ
  c : List ℚ
  v : List ℤ
deriving DecidableEq, Repr

/-- The loop body of `FinnhubConnector.fetch_ohlcv` for index `i` into the
parallel arrays (src/connectors.py lines 315-322).  Python raises
`IndexError` when an array is shorter than "t", modelled here with
`List.getD _ 0` (theorems only use equal-length responses).  `adj_close` is
never passed, so it stays at its dataclass default `none`. -/
def finnhub_bar (ticker interval : String) (resp : FinnhubResponse) (i : ℕ) :
    OHLCVData :=
  { timestamp := resp.t.getD i 0
    ticker := pyUpper ticker
    interval := interval
    «open» := resp.o.getD i 0
    high := resp.h.getD i 0
    low := resp.l.getD i 0
    close := resp.c.getD i 0
    volume := resp.v.getD i 0
    adj_close := none
    source := "finnhub" }

/-- `FinnhubConnector.fetch_ohlcv` (src/connectors.py lines 278-323).  Note:
no lookback filtering (the date range lives in the request parameters) and
no sorting — the bars come out in response order. -/
def finnhub_fetch_ohlcv (api_key : String) (rl : RateLimiter)
    (resp : FinnhubResponse) (ticker interval : String) (now : ℚ)
    (_lookback_days : ℤ) : FetchEffects :=
  if api_key = "" then ⟨[], 0, rl⟩ else
  let rl1 := (wait_if_needed rl ticker now).2
  if resp.status_code ≠ 200 then ⟨[], 1, rl1⟩ else
  if resp.s ≠ "ok" then ⟨[], 1, rl1⟩ else
  ⟨(List.range resp.t.length).map (finnhub_bar ticker interval resp), 1, rl1⟩

/-- One item of the Twelve Data "values" array.  `datetimeTs` is the parsed
`item["datetime"]` (epoch seconds), `none` when missing or unparseable; the
four price fields model `item["open"]` etc., `none` when the key is missing
(a `KeyError` skips the whole bar); `volumeField` models
`item.get("volume", 0)`. -/
structure TDItem where
  datetimeTs : Option ℚ
  openField : Option ℚ
  highField : Option ℚ
  lowField : Option ℚ
  closeField : Option ℚ
  volumeField : Option ℤ
deriving DecidableEq, Repr

/-- The decoded Twelve Data response: status code, whether the "values" key
is present, and the "values" array. -/
structure TDResponse where
  status_code : ℤ
  has_values : Bool
  values : List TDItem
deriving DecidableEq, Repr

/-- The loop body of `TwelveDataConnector.fetch_ohlcv` for one item
(src/connectors.py lines 391-404): skip on missing/unparseable datetime, on
a `KeyError` for any of the four price keys, or on a date older than the
cutoff.  `adj_close` is never passed, so it stays `none`. -/
def td_bar (ticker interval : String) (cutoff : ℚ) (item : TDItem) :
    Option OHLCVData :=
  match item.datetimeTs, item.openField, item.highField, item.lowField,
      item.closeField with
  | some ts, some o, some hi, some lo, some c =>
    if ts < cutoff then none
    else some
      { timestamp := ts
        ticker := pyUpper ticker
        interval := interval
        «open» := o
        high := hi
        low := lo
        close := c
        volume := item.volumeField.getD 0
        adj_close := none
        source := "twelve_data" }
  | _, _, _, _, _ => none

/-- `TwelveDataConnector.fetch_ohlcv` (src/connectors.py lines 364-407):
empty-key short circuit, status gate, missing "values" gate, the per-item
`td_bar` step, stable sort by timestamp. -/
def twelve_data_fetch_ohlcv (api_key : String) (rl : RateLimiter)
    (resp : TDResponse) (ticker interval : String) (now : ℚ)
    (lookback_days : ℤ) : FetchEffects :=
  if api_key = "" then ⟨[], 0, rl⟩ else
  let rl1 := (wait_if_needed rl ticker now).2
  if resp.status_code ≠ 200 then ⟨[], 1, rl1⟩ else
  if resp.has_values = false then ⟨[], 1, rl1⟩ else
  let result := resp.values.filterMap
    (td_bar ticker interval (now - 86400 * (lookback_days : ℚ)))
  ⟨result.mergeSort byTimestamp, 1, rl1⟩

/-- One item of the FMP historical array.  `dateTs` models the parse of
`item["date"].split()[0]` (epoch seconds), `none` when the key is missing or
unparseable (the bar is skipped); the numeric fields model `.get` with
default 0, and `adjCloseField` models `item.get("adjClose", ...)`. -/
structure FMPItem where
  dateTs : Option ℚ
  openField : Option ℚ
  highField : Option ℚ
  lowField : Option ℚ
  closeField : Option ℚ
  volumeField : Option ℤ
  adjCloseField : Option ℚ
deriving DecidableEq, Repr

/-- The decoded FMP response: status code and the historical bar list
(`data.get("historical", [])` for daily, the body itself otherwise). -/
structure FMPResponse where
  status_code : ℤ
  historical : List FMPItem
deriving DecidableEq, Repr

/-- The loop body of `FMPConnector.fetch_ohlcv` for one historical item
(src/connectors.py lines 456-470): skip on missing/unparseable date or a
date older than the cutoff; `adj_close` falls back from "adjClose" to
"close". -/
def fmp_bar (ticker interval : String) (cutoff : ℚ) (item : FMPItem) :
    Option OHLCVData :=
  match item.dateTs with
  | none => none
  | some ts =>
    if ts < cutoff then none
    else some
      { timestamp := ts
        ticker := pyUpper ticker
        interval := interval
        «open» := item.openField.getD 0
        high := item.highField.getD 0
        low := item.lowField.getD 0
        close := item.closeField.getD 0
        volume := item.volumeField.getD 0
        adj_close :=
          some (item.adjCloseField.getD (item.closeField.getD 0))
        source := "fmp" }

/-- `FMPConnector.fetch_ohlcv` (src/connectors.py lines 431-473): empty-key
short circuit, status gate, the per-item `fmp_bar` step, stable sort by
timestamp. -/
def fmp_fetch_ohlcv (api_key : String) (rl : RateLimiter)
    (resp : FMPResponse) (ticker interval : String) (now : ℚ)
    (lookback_days : ℤ) : FetchEffects :=
  if api_key = "" then ⟨[], 0, rl⟩ else
  let rl1 := (wait_if_needed rl ticker now).2
  if resp.status_code ≠ 200 then ⟨[], 1, rl1⟩ else
  let result := resp.historical.filterMap
    (fmp_bar ticker interval (now - 86400 * (lookback_days : ℚ)))
  ⟨result.mergeSort byTimestamp, 1, rl1⟩

/-- One item of the Polygon "results" array: `tField` models `item["t"]`
(epoch milliseconds), the others `item["o"]`, `item["h"]`, `item["l"]`,
`item["c"]`, `item["v"]`; `none` models a missing key, whose `KeyError`
skips the bar. -/
structure PolygonItem where
  tField : Option ℚ
  oField : Option ℚ
  hField : Option ℚ
  lField : Option ℚ
  cField : Option ℚ
  vField : Option ℤ
deriving DecidableEq, Repr

/-- The decoded Polygon response: status code and `data.get("results", [])`. -/
structure PolygonResponse where
  status_code : ℤ
  results : List PolygonItem
deriving DecidableEq, Repr

/-- The loop body of `PolygonConnector.fetch_ohlcv` for one result item
(src/connectors.py lines 521-531): direct-index field extraction with
`item["t"] / 1000` as the timestamp; a `KeyError` on any field skips the
bar.  `adj_close` is never passed, so it stays `none`. -/
def polygon_bar (ticker interval : String) (item : PolygonItem) :
    Option OHLCVData :=
  match item.tField, item.oField, item.hField, item.lField, item.cField,
      item.vField with
  | some t, some o, some hi, some lo, some c, some v =>
    some
      { timestamp := t / 1000
        ticker := pyUpper ticker
        interval := interval
        «open» := o
        high := hi
        low := lo
        close := c
        volume := v
        adj_close := none
        source := "polygon" }
  | _, _, _, _, _, _ => none

/-- `PolygonConnector.fetch_ohlcv` (src/connectors.py lines 497-532):
empty-key short circuit, status gate, the per-item `polygon_bar` step.
Note: no local lookback filtering (the date range lives in the request URL)
and no sorting — the bars come out in response order. -/
def polygon_fetch_ohlcv (api_key : String) (rl : RateLimiter)
    (resp : PolygonResponse) (ticker interval : String) (now : ℚ)
    (_lookback_days : ℤ) : FetchEffects :=
  if api_key = "" then ⟨[], 0, rl⟩ else
  let rl1 := (wait_if_needed rl ticker now).2
  if resp.status_code ≠ 200 then ⟨[], 1, rl1⟩ else
  ⟨resp.results.filterMap (polygon_bar ticker interval), 1, rl1⟩

/-- The range parameter chosen by `IEXCloudConnector.fetch_ohlcv`
(src/connectors.py lines 576-585) from `lookback_days`. -/
def iex_range_param (lookback_days : ℤ) : String :=
  if lookback_days ≤ 5 then "5d"
  else if lookback_days ≤ 30 then "1m"
  else if lookback_days ≤ 90 then "3m"
  else if lookback_days ≤ 180 then "6m"
  else "1y"

/-- One item of the IEX Cloud chart array.  `dateTs` models
`datetime.strptime(item["date"], "%Y-%m-%d")` (epoch seconds), `none` when
the key is missing or unparseable (the bar is skipped); the numeric fields
model `.get` with default 0, and `fCloseField` models
`item.get("fClose", ...)`. -/
structure IEXItem where
  dateTs : Option ℚ
  openField : Option ℚ
  highField : Option ℚ
  lowField : Option ℚ
  closeField : Option ℚ
  volumeField : Option ℤ
  fCloseField : Option ℚ
deriving DecidableEq, Repr

/-- The decoded IEX Cloud response: status code and the chart array. -/
structure IEXResponse where
  status_code : ℤ
  chart : List IEXItem
deriving DecidableEq, Repr

/-- The loop body of `IEXCloudConnector.fetch_ohlcv` for one chart item
(src/connectors.py lines 600-612): skip on missing/unparseable date;
`adj_close` falls back from "fClose" to "close".  There is NO comparison
against the lookback cutoff here. -/
def iex_bar (ticker interval : String) (item : IEXItem) : Option OHLCVData :=
  match item.dateTs with
  | none => none
  | some ts =>
    some
      { timestamp := ts
        ticker := pyUpper ticker
        interval := interval
        «open» := item.openField.getD 0
        high := item.highField.getD 0
        low := item.lowField.getD 0
        close := item.closeField.getD 0
        volume := item.volumeField.getD 0
        adj_close :=
          some (item.fCloseField.getD (item.closeField.getD 0))
        source := "iex_cloud" }

/-- `IEXCloudConnector.fetch_ohlcv` (src/connectors.py lines 570-613):
empty-key short circuit, status gate, the per-item `iex_bar` step.  Note:
the lookback only selects the coarse `iex_range_param` of the request URL;
the returned bars are NOT filtered against `now - lookback_days`, and the
list is not sorted. -/
def iex_cloud_fetch_ohlcv (api_key : String) (rl : RateLimiter)
    (resp : IEXResponse) (ticker interval : String) (now : ℚ)
    (_lookback_days : ℤ) : FetchEffects :=
  if api_key = "" then ⟨[], 0, rl⟩ else
  let rl1 := (wait_if_needed rl ticker now).2
  if resp.status_code ≠ 200 then ⟨[], 1, rl1⟩ else
  ⟨resp.chart.filterMap (iex_bar ticker interval), 1, rl1⟩

/-- `DataConnector.is_available` (src/connectors.py lines 118-120).  No
subclass overrides it, so for every connector instance — including a
credential-requiring one constructed with an empty `api_key`, which is the
argument here — the method ignores all state and returns `True`. -/
def is_available (_api_key : String) : Bool := true

/-- The module-level environment read at import time (src/connectors.py
lines 127-131, 187, 261, 347, 414, 480, 553): whether `yfinance` is
importable and the credential string of each keyed provider (empty string
when the variable is unset). -/
structure Env where
  yfinance_installed : Bool
  alpha_vantage_key : String
  finnhub_key : String
  twelve_data_key : String
  fmp_key : String
  polygon_key : String
  iex_cloud_key : String
deriving DecidableEq, Repr

/-- `get_available_connectors` (src/connectors.py lines 636-653) by
`SOURCE_NAME`: a singleton is constructed only when its availability flag
(`bool(os.getenv(...))`, i.e. nonempty credential) is true, and only
constructed singletons enter the registry, in this fixed order. -/
def get_available_connector_names (e : Env) : List String :=
  (if e.yfinance_installed then ["yfinance"] else []) ++
  (if e.alpha_vantage_key ≠ "" then ["alpha_vantage"] else []) ++
  (if e.finnhub_key ≠ "" then ["finnhub"] else []) ++
  (if e.twelve_data_key ≠ "" then ["twelve_data"] else []) ++
  (if e.fmp_key ≠ "" then ["fmp"] else []) ++
  (if e.polygon_key ≠ "" then ["polygon"] else []) ++
  (if e.iex_cloud_key ≠ "" then ["iex_cloud"] else [])

/-- A `fetch_ohlcv` outcome that makes `fetch_with_fallback` advance to the
next connector: an empty success or a raised exception (src/connectors.py
lines 668-673). -/
def failsOrEmpty (r : Except String (List OHLCVData)) : Prop :=
  r = Except.ok [] ∨ ∃ e, r = Except.error e

/-- A sample bar used in concrete scenarios (ticker/interval match the
arguments the scenarios pass). -/
def sampleBar (ts : ℚ) : OHLCVData :=
  { timestamp := ts, ticker := "AAPL", interval := "1d", «open» := 1,
    high := 2, low := 1, close := 2, volume := 10, adj_close := none,
    source := "sample" }

/-- A connector whose fetch raises. -/
def connA : Connector :=
  { source_name := "provider_a", supported_intervals := ["1d"],
    fetch := fun _ _ _ => Except.error "timeout" }

/-- A connector whose fetch returns three bars. -/
def connB : Connector :=
  { source_name := "provider_b", supported_intervals := ["1d"],
    fetch := fun _ _ _ => Except.ok [sampleBar 1, sampleBar 2, sampleBar 3] }

/-- A connector whose fetch would return a bar, placed after the succeeding
one to observe that it is never invoked. -/
def connC : Connector :=
  { source_name := "provider_c", supported_intervals := ["1d"],
    fetch := fun _ _ _ => Except.ok [sampleBar 9] }

/-- A connector whose fetch returns an empty list. -/
def connEmpty : Connector :=
  { source_name := "provider_e", supported_intervals := ["1d"],
    fetch := fun _ _ _ => Except.ok [] }

/-- A fresh rate limiter with the Alpha Vantage quota (5 per 60s). -/
def rlFive : RateLimiter := ⟨5, 60, []⟩

/-- A fresh rate limiter with the Finnhub quota (60 per 60s). -/
def rlSixty : RateLimiter := ⟨60, 60, []⟩

/-- A fresh rate limiter with the IEX Cloud quota (100 per 60s). -/
def rlHundred : RateLimiter := ⟨100, 60, []⟩

/-- A rate limiter at its limit: quota 2 per 60s, with requests already
recorded at times 10 and 20 under key "k". -/
def rlBusy : RateLimiter := ⟨2, 60, [("k", [10, 20])]⟩

/-- A well-formed Finnhub response whose timestamps are neither sorted nor
duplicate-free: [5, 5, 3]. -/
def finnhubRespDup : FinnhubResponse :=
  ⟨200, "ok", [5, 5, 3], [1, 1, 1], [2, 2, 2], [1, 1, 1], [2, 2, 2],
   [7, 7, 7]⟩

/-- A well-formed single-bar Finnhub response. -/
def finnhubRespOne : FinnhubResponse :=
  ⟨200, "ok", [5], [1], [2], [1], [2], [7]⟩

/-- Attempt outcomes that fail once and then succeed with 7. -/
def retryOnceFails : ℕ → Except String ℤ :=
  fun j => if j = 0 then Except.error "boom" else Except.ok 7

/-- Attempt outcomes that always fail. -/
def retryAlwaysFails : ℕ → Except String ℤ :=
  fun _ => Except.error "down"

/-- An IEX Cloud chart item dated 80 days into the past (epoch second
6912000 = day 80), with no "fClose" key. -/
def iexStaleItem : IEXItem :=
  ⟨some 6912000, some 1, some 2, some 1, some 2, some 10, none⟩

/-- An IEX Cloud response whose only bar is 80 days old. -/
def iexRespStale : IEXResponse := ⟨200, [iexStaleItem]⟩

/-- The record `iex_cloud_fetch_ohlcv` produces from `iexStaleItem` for
ticker "AAPL" at interval "1d". -/
def iexRecStale : OHLCVData :=
  { timestamp := 6912000, ticker := "AAPL", interval := "1d", «open» := 1,
    high := 2, low := 1, close := 2, volume := 10, adj_close := some 2,
    source := "iex_cloud" }

/-- Alpha Vantage values with no "5. adjusted close" key. -/
def avValsW : AVValues := ⟨some 1, some 2, some 1, some 2, some 10, none, none⟩

/-- An Alpha Vantage entry dated day 95 (in range for a 10-day lookback from
day 100). -/
def avEntryW : AVEntry := ⟨some 8208000, avValsW⟩

/-- An Alpha Vantage entry dated day 80 (older than the 10-day cutoff from
day 100, so it is filtered out). -/
def avEntryOld : AVEntry := ⟨some 6912000, avValsW⟩

/-- An Alpha Vantage response holding one in-range and one stale entry. -/
def avRespW : AVResponse := ⟨200, [avEntryW, avEntryOld]⟩

/-- The record `alpha_vantage_fetch_ohlcv` produces from `avEntryW` for
ticker "AAPL" at interval "1d". -/
def avRecW : OHLCVData :=
  { timestamp := 8208000, ticker := "AAPL", interval := "1d", «open» := 1,
    high := 2, low := 1, close := 2, volume := 10, adj_close := some 2,
    source := "alpha_vantage" }

/-- An environment with yfinance installed and no credential configured. -/
def envNone : Env := ⟨true, "", "", "", "", "", ""⟩

/-! ## Fallback orchestrator (claims C1, C2) -/

/-- Unfolding `fwfGo` past a connector that does not support the interval:
no invocation happens and every later trace position shifts by one. -/
theorem fwfGo_cons_not_supported (t i : String) (l : ℤ) (c : Connector)
    (rest : List Connector) (h : i ∉ c.supported_intervals) :
    fwfGo t i l (c :: rest) =
      ((fwfGo t i l rest).1, (fwfGo t i l rest).2.map (fun j => j + 1)) := by
  simp [fwfGo, h]

/-- Unfolding `fwfGo` past a connector whose fetch raises. -/
theorem fwfGo_cons_error (t i : String) (l : ℤ) (c : Connector)
    (rest : List Connector) (h : i ∈ c.supported_intervals) (e : String)
    (he : c.fetch t i l = Except.error e) :
    fwfGo t i l (c :: rest) =
      ((fwfGo t i l rest).1,
       0 :: (fwfGo t i l rest).2.map (fun j => j + 1)) := by
  simp [fwfGo, h, he]

/-- Unfolding `fwfGo` past a connector whose fetch returns an empty list. -/
theorem fwfGo_cons_empty (t i : String) (l : ℤ) (c : Connector)
    (rest : List Connector) (h : i ∈ c.supported_intervals)
    (he : c.fetch t i l = Except.ok []) :
    fwfGo t i l (c :: rest) =
      ((fwfGo t i l rest).1,
       0 :: (fwfGo t i l rest).2.map (fun j => j + 1)) := by
  simp [fwfGo, h, he]

/-- Unfolding `fwfGo` at a connector whose fetch returns a non-empty list:
the loop returns it at once and the trace holds only this connector. -/
theorem fwfGo_cons_success (t i : String) (l : ℤ) (c : Connector)
    (rest : List Connector) (h : i ∈ c.supported_intervals)
    (d : OHLCVData) (ds : List OHLCVData)
    (he : c.fetch t i l = Except.ok (d :: ds)) :
    fwfGo t i l (c :: rest) = (d :: ds, [0]) := by
  simp [fwfGo, h, he]

/-- A connector that is skipped (unsupported interval, raise, or empty
result) leaves the result unchanged, and every trace entry is either this
connector or a shifted entry of the remaining trace. -/
theorem fwfGo_cons_skip (t i : String) (l : ℤ) (c : Connector)
    (rest : List Connector)
    (h : i ∉ c.supported_intervals ∨ failsOrEmpty (c.fetch t i l)) :
    (fwfGo t i l (c :: rest)).1 = (fwfGo t i l rest).1 ∧
      ∀ j ∈ (fwfGo t i l (c :: rest)).2,
        j = 0 ∨ ∃ j' ∈ (fwfGo t i l rest).2, j = j' + 1 := by
  by_cases hs : i ∈ c.supported_intervals
  · have hfe : failsOrEmpty (c.fetch t i l) := by
      rcases h with hns | hfe
      · exact absurd hs hns
      · exact hfe
    rcases hfe with hok | ⟨e, herr⟩
    · rw [fwfGo_cons_empty t i l c rest hs hok]
      refine ⟨rfl, ?_⟩
      intro j hj
      rcases List.mem_cons.mp hj with rfl | hj2
      · exact Or.inl rfl
      · obtain ⟨j', hj', rfl⟩ := List.mem_map.mp hj2
        exact Or.inr ⟨j', hj', rfl⟩
    · rw [fwfGo_cons_error t i l c rest hs e herr]
      refine ⟨rfl, ?_⟩
      intro j hj
      rcases List.mem_cons.mp hj with rfl | hj2
      · exact Or.inl rfl
      · obtain ⟨j', hj', rfl⟩ := List.mem_map.mp hj2
        exact Or.inr ⟨j', hj', rfl⟩
  · rw [fwfGo_cons_not_supported t i l c rest hs]
    refine ⟨rfl, ?_⟩
    intro j hj
    obtain ⟨j', hj', rfl⟩ := List.mem_map.mp hj
    exact Or.inr ⟨j', hj', rfl⟩

/-- Claim C1: `fetch_with_fallback` iterates the connectors in registry
order; every connector before `c` is skipped (it does not support the
interval, raises, or returns an empty list), `c` supports the interval and
its fetch returns a non-empty list `data`; then the overall result is
exactly `data`, and every invoked position lies at or before `c`'s position
`pre.length` — in particular no connector after `c` is ever invoked. -/
theorem fetch_with_fallback_first_success
    (t i : String) (l : ℤ) (c : Connector) (suf : List Connector)
    (data : List OHLCVData) (pre : List Connector)
    (hpre : ∀ a ∈ pre, i ∉ a.supported_intervals ∨ failsOrEmpty (a.fetch t i l))
    (hsup : i ∈ c.supported_intervals)
    (hfetch : c.fetch t i l = Except.ok data) (hne : data ≠ []) :
    fetch_with_fallback (pre ++ c :: suf) t i l = data ∧
      ∀ j ∈ (fwfGo t i l (pre ++ c :: suf)).2, j ≤ pre.length := by
  simp only [fetch_with_fallback]
  revert hpre
  induction pre with
  | nil =>
    intro _hpre
    obtain ⟨d, ds, rfl⟩ := List.exists_cons_of_ne_nil hne
    rw [List.nil_append, fwfGo_cons_success t i l c suf hsup d ds hfetch]
    refine ⟨rfl, ?_⟩
    intro j hj
    rw [List.mem_singleton] at hj
    simp [hj]
  | cons a pre ih =>
    intro hpre
    obtain ⟨h1, h2⟩ := ih (fun x hx => hpre x (List.mem_cons_of_mem a hx))
    have hskip := fwfGo_cons_skip t i l a (pre ++ c :: suf)
      (hpre a (List.mem_cons_self a pre))
    rw [List.cons_append]
    refine ⟨?_, ?_⟩
    · rw [hskip.1]
      exact h1
    · intro j hj
      rcases hskip.2 j hj with rfl | ⟨j', hj', rfl⟩
      · simp
      · have := h2 j' hj'
        simp only [List.length_cons]
        omega

/-- Witness for C1: with connector order [connA (raises), connB (three
bars), connC (unused)], the result is connB's three bars and every invoked
position is at or before connB's position 1 — so connC (position 2) is
never invoked. -/
theorem fetch_with_fallback_first_success_witness :
    fetch_with_fallback ([connA] ++ connB :: [connC]) "AAPL" "1d" 30 =
        [sampleBar 1, sampleBar 2, sampleBar 3] ∧
      ∀ j ∈ (fwfGo "AAPL" "1d" 30 ([connA] ++ connB :: [connC])).2,
        j ≤ [connA].length :=
  fetch_with_fallback_first_success "AAPL" "1d" 30 connB [connC]
    [sampleBar 1, sampleBar 2, sampleBar 3] [connA]
    (fun a ha => by
      rw [List.mem_singleton] at ha
      subst ha
      exact Or.inr (Or.inr ⟨"timeout", rfl⟩))
    (by decide) rfl (by decide)

/-- Claim C2: when every available connector raises or returns an empty
list, `fetch_with_fallback` returns the empty list (raising is absorbed by
the loop, so in this embedding the function is total by construction). -/
theorem fetch_with_fallback_all_fail
    (t i : String) (l : ℤ) (conns : List Connector)
    (hall : ∀ a ∈ conns, failsOrEmpty (a.fetch t i l)) :
    fetch_with_fallback conns t i l = [] := by
  simp only [fetch_with_fallback]
  revert hall
  induction conns with
  | nil =>
    intro _hall
    rfl
  | cons a rest ih =>
    intro hall
    have hskip := fwfGo_cons_skip t i l a rest
      (Or.inr (hall a (List.mem_cons_self a rest)))
    rw [hskip.1]
    exact ih (fun x hx => hall x (List.mem_cons_of_mem a hx))

/-- Witness for C2: a raising connector followed by an empty one yields the
empty list. -/
theorem fetch_with_fallback_all_fail_witness :
    fetch_with_fallback [connA, connEmpty] "AAPL" "1d" 30 = [] :=
  fetch_with_fallback_all_fail "AAPL" "1d" 30 [connA, connEmpty]
    (fun a ha => by
      rcases List.mem_cons.mp ha with rfl | ha2
      · exact Or.inr ⟨"timeout", rfl⟩
      · rw [List.mem_singleton] at ha2
        subst ha2
        exact Or.inl rfl)

/-! ## Retry policy (claims C5, C10) -/

/-- Splitting a backoff-delay list: the delays for `k + 1` attempts starting
at exponent `i` are the delay for exponent `i` followed by the delays for
`k` attempts starting at exponent `i + 1`. -/
theorem range_map_pow_shift (base : ℚ) (i k : ℕ) :
    (List.range (k + 1)).map (fun j => base * 2 ^ (i + j)) =
      base * 2 ^ i :: (List.range k).map (fun j => base * 2 ^ (i + 1 + j)) := by
  rw [List.range_succ_eq_map]
  simp only [List.map_cons, List.map_map, Nat.add_zero]
  refine congrArg (List.cons _) ?_
  refine List.map_congr_left (fun a _ => ?_)
  simp only [Function.comp_apply, Nat.succ_eq_add_one]
  rw [show i + (a + 1) = i + 1 + a from by omega]

/-- One step of the retry loop: a successful attempt returns at once with no
further sleeping. -/
theorem retryFrom_step_ok {E A : Type} (f : ℕ → Except E A) (mr : ℕ)
    (base : ℚ) (i : ℕ) (v : A) (hi : i < mr) (hv : f i = Except.ok v) :
    retryFrom f mr base i = (some (Except.ok v), []) := by
  rw [retryFrom, dif_pos hi, hv]

/-- One step of the retry loop: a failure on the final attempt re-raises. -/
theorem retryFrom_step_last {E A : Type} (f : ℕ → Except E A) (mr : ℕ)
    (base : ℚ) (i : ℕ) (e : E) (hi : i < mr) (he : f i = Except.error e)
    (hl : i = mr - 1) :
    retryFrom f mr base i = (some (Except.error e), []) := by
  subst hl
  rw [retryFrom, dif_pos hi]
  simp [he]

/-- One step of the retry loop: a failure on a non-final attempt sleeps
`base * 2 ^ i` and continues with the next attempt. -/
theorem retryFrom_step_cont {E A : Type} (f : ℕ → Except E A) (mr : ℕ)
    (base : ℚ) (i : ℕ) (e : E) (hi : i < mr) (he : f i = Except.error e)
    (hl : ¬ i = mr - 1) :
    retryFrom f mr base i =
      ((retryFrom f mr base (i + 1)).1,
       base * 2 ^ i :: (retryFrom f mr base (i + 1)).2) := by
  rw [retryFrom, dif_pos hi]
  simp [he, hl]

/-- The retry loop started at attempt `i`: if the next `k` attempts fail and
attempt `i + k` succeeds with `v`, the loop returns `v` and sleeps exactly
the exponential-backoff delays of exponents `i`, ..., `i + k - 1`. -/
theorem retryFrom_ok {E A : Type} (f : ℕ → Except E A) (mr : ℕ) (base : ℚ)
    (k : ℕ) :
    ∀ i v, i + k < mr → (∀ j, j < k → exceptIsOk (f (i + j)) = false) →
      f (i + k) = Except.ok v →
      retryFrom f mr base i =
        (some (Except.ok v),
          (List.range k).map (fun j => base * 2 ^ (i + j))) := by
  induction k with
  | zero =>
    intro i v hlt _hfail hok
    rw [retryFrom, dif_pos (show i < mr from by omega)]
    rw [show f i = Except.ok v from by simpa using hok]
    simp
  | succ k ih =>
    intro i v hlt hfail hok
    have h0 : exceptIsOk (f i) = false := by
      simpa using hfail 0 (Nat.succ_pos k)
    obtain ⟨e, he⟩ : ∃ e, f i = Except.error e := by
      cases hfi : f i with
      | ok w => rw [hfi] at h0; simp [exceptIsOk] at h0
      | error e => exact ⟨e, rfl⟩
    rw [retryFrom_step_cont f mr base i e (by omega) he (by omega)]
    have hrec := ih (i + 1) v (by omega)
      (fun j hj => by
        have hx := hfail (j + 1) (by omega)
        rw [show i + (j + 1) = i + 1 + j from by omega] at hx
        exact hx)
      (by
        rw [show i + 1 + k = i + (k + 1) from by omega]
        exact hok)
    rw [hrec, range_map_pow_shift]

/-- The retry loop started at attempt `i < mr`: if every attempt from `i` on
fails, the loop re-raises the fault of the final attempt `mr - 1` after
sleeping the backoff delays of exponents `i`, ..., `mr - 2`. -/
theorem retryFrom_allfail {E A : Type} (f : ℕ → Except E A) (mr : ℕ)
    (base : ℚ) (i : ℕ) (hi : i < mr)
    (hfail : ∀ j, i ≤ j → j < mr → exceptIsOk (f j) = false) :
    retryFrom f mr base i =
      (some (f (mr - 1)),
        (List.range (mr - 1 - i)).map (fun j => base * 2 ^ (i + j))) := by
  obtain ⟨e, he⟩ : ∃ e, f i = Except.error e := by
    have h0 := hfail i le_rfl hi
    cases hfi : f i with
    | ok w => rw [hfi] at h0; simp [exceptIsOk] at h0
    | error e => exact ⟨e, rfl⟩
  by_cases hlast : i = mr - 1
  · rw [retryFrom_step_last f mr base i e hi he hlast]
    subst hlast
    simp [he]
  · rw [retryFrom_step_cont f mr base i e hi he hlast]
    have hrec := retryFrom_allfail f mr base (i + 1) (by omega)
      (fun j hj1 hj2 => hfail j (by omega) hj2)
    rw [hrec, show mr - 1 - i = (mr - 1 - (i + 1)) + 1 from by omega,
      range_map_pow_shift]
termination_by mr - i

/-- Claim C5: the retry wrapper returns the first successful attempt
immediately, sleeping `base * 2 ^ attempt` after the failure of attempt
number `attempt` (counted from 0, with `max_retries` total attempts); when
every attempt fails, the fault raised by the wrapped call on the final
attempt propagates, after the delays of exponents 0, ..., max_retries−2. -/
theorem retry_with_backoff_policy {E A : Type} (mr : ℕ) (base : ℚ)
    (f : ℕ → Except E A) :
    (∀ k v, k < mr → (∀ j, j < k → exceptIsOk (f j) = false) →
        f k = Except.ok v →
        retry_with_backoff mr base f =
          (some (Except.ok v), (List.range k).map (fun j => base * 2 ^ j))) ∧
      (1 ≤ mr → (∀ j, j < mr → exceptIsOk (f j) = false) →
        ∃ e, f (mr - 1) = Except.error e ∧
          retry_with_backoff mr base f =
            (some (Except.error e),
              (List.range (mr - 1)).map (fun j => base * 2 ^ j))) := by
  constructor
  · intro k v hk hfail hok
    have h := retryFrom_ok f mr base k 0 v (by omega)
      (fun j hj => by simpa using hfail j hj) (by simpa using hok)
    simpa [retry_with_backoff] using h
  · intro hmr hfail
    obtain ⟨e, he⟩ : ∃ e, f (mr - 1) = Except.error e := by
      have h0 := hfail (mr - 1) (by omega)
      cases hfi : f (mr - 1) with
      | ok w => rw [hfi] at h0; simp [exceptIsOk] at h0
      | error e => exact ⟨e, rfl⟩
    refine ⟨e, he, ?_⟩
    have h := retryFrom_allfail f mr base 0 (by omega)
      (fun j _ hj => hfail j hj)
    rw [he] at h
    simpa [retry_with_backoff] using h

/-- Witness for C5: one failure then success on `retryOnceFails` with
`max_retries = 3`, `base_delay = 1` returns the success and sleeps [1]. -/
theorem retry_with_backoff_policy_witness :
    retry_with_backoff 3 1 retryOnceFails =
      (some (Except.ok 7), [(1 : ℚ)]) := by
  have h := (retry_with_backoff_policy 3 1 retryOnceFails).1 1 7 (by omega)
    (by decide) rfl
  simpa using h

/-- The retry loop started at attempt `i < mr` always reaches some attempt
`k` whose outcome it returns, `k` being a success or the final attempt. -/
theorem retryFrom_reaches {E A : Type} (f : ℕ → Except E A) (mr : ℕ)
    (base : ℚ) (i : ℕ) (hi : i < mr) :
    ∃ k, i ≤ k ∧ k < mr ∧ (retryFrom f mr base i).1 = some (f k) ∧
      (exceptIsOk (f k) = true ∨ k = mr - 1) := by
  cases hfi : f i with
  | ok v =>
    refine ⟨i, le_rfl, hi, ?_, Or.inl (by rw [hfi]; rfl)⟩
    rw [retryFrom_step_ok f mr base i v hi hfi, hfi]
  | error e =>
    by_cases hlast : i = mr - 1
    · refine ⟨i, le_rfl, hi, ?_, Or.inr hlast⟩
      rw [retryFrom_step_last f mr base i e hi hfi hlast, hfi]
    · obtain ⟨k, hik, hk, hres, hki⟩ := retryFrom_reaches f mr base (i + 1)
        (by omega)
      refine ⟨k, by omega, hk, ?_, hki⟩
      rw [retryFrom_step_cont f mr base i e hi hfi hlast]
      simpa using hres
termination_by mr - i

/-- Claim C10: for `max_retries ≥ 1` the wrapper is total — it never reaches
the trailing `return []` branch (modelled as `none`), and its outcome is the
outcome of some attempt, namely a success or the final attempt (whose fault
is re-raised). -/
theorem retry_with_backoff_total {E A : Type} (mr : ℕ) (base : ℚ)
    (f : ℕ → Except E A) (hmr : 1 ≤ mr) :
    (retry_with_backoff mr base f).1 ≠ none ∧
      ∃ k, k < mr ∧ (retry_with_backoff mr base f).1 = some (f k) ∧
        (exceptIsOk (f k) = true ∨ k = mr - 1) := by
  obtain ⟨k, _hik, hk, hres, hki⟩ := retryFrom_reaches f mr base 0 (by omega)
  refine ⟨?_, k, hk, by simpa [retry_with_backoff] using hres, hki⟩
  simp only [retry_with_backoff] at *
  rw [hres]
  simp

/-- Witness for C10: with two always-failing attempts the wrapper still
produces an outcome (never the unreachable trailing branch). -/
theorem retry_with_backoff_total_witness :
    (retry_with_backoff 2 1 retryAlwaysFails).1 ≠ none :=
  (retry_with_backoff_total 2 1 retryAlwaysFails (by omega)).1

/-! ## Rate limiter (claim C6) -/

/-- Claim C6: with the per-key history sorted ascending (as the limiter
itself maintains it), when at least `requests_per_window` entries survive in
the trailing window the call sleeps at least
`window_seconds - (now - oldest_surviving)` (the surviving head being the
oldest surviving entry), and when fewer survive it does not sleep. -/
theorem rate_limiter_wait_spec (rl : RateLimiter) (key : String) (now : ℚ) :
    (List.Sorted (· ≤ ·) (lookupTimes rl.request_times key) →
        rl.requests_per_window ≤ (survivingTimes rl key now).length →
          (∀ u ∈ survivingTimes rl key now,
              (survivingTimes rl key now).headD 0 ≤ u) ∧
            rl.window_seconds - (now - (survivingTimes rl key now).headD 0) ≤
              (wait_if_needed rl key now).1) ∧
      ((survivingTimes rl key now).length < rl.requests_per_window →
        (wait_if_needed rl key now).1 = 0) := by
  constructor
  · intro hsorted hN
    constructor
    · have hs : List.Sorted (· ≤ ·) (survivingTimes rl key now) :=
        List.Pairwise.filter _ hsorted
      intro u hu
      cases hkept : survivingTimes rl key now with
      | nil => rw [hkept] at hu; simp at hu
      | cons x xs =>
        rw [hkept] at hu hs
        simp only [hkept, List.headD_cons]
        rcases List.mem_cons.mp hu with rfl | hu2
        · exact le_refl u
        · exact (List.pairwise_cons.mp hs).1 u hu2
    · show _ ≤ sleep_time rl key now
      rw [sleep_time, if_pos hN]
      by_cases hpos :
          0 < (survivingTimes rl key now).headD 0 -
            (now - rl.window_seconds) + 1 / 10
      · rw [if_pos hpos]
        linarith
      · rw [if_neg hpos]
        push_neg at hpos
        linarith
  · intro hlt
    show sleep_time rl key now = 0
    rw [sleep_time, if_neg (by omega)]

/-- Witness for C6: a limiter with quota 2 whose key "k" already has the
two surviving timestamps 10 and 20; at `now = 30` with a 60-second window
the call sleeps at least `60 - (30 - 10)`. -/
theorem rate_limiter_wait_spec_witness :
    rlBusy.window_seconds -
        (30 - (survivingTimes rlBusy "k" 30).headD 0) ≤
      (wait_if_needed rlBusy "k" 30).1 :=
  ((rate_limiter_wait_spec rlBusy "k" 30).1
    (by decide)
    (by norm_num [rlBusy, survivingTimes, lookupTimes, List.filter])).2

/-! ## Provider record properties (claims C3, C4, C7) -/

/-- Every record Alpha Vantage returns comes from `av_bar` on some response
entry. -/
theorem av_records_mem (api_key : String) (rl : RateLimiter)
    (resp : AVResponse) (t i : String) (now : ℚ) (lb : ℤ) :
    ∀ r ∈ (alpha_vantage_fetch_ohlcv api_key rl resp t i now lb).records,
      ∃ e ∈ resp.time_series,
        av_bar t i (now - 86400 * (lb : ℚ)) e = some r := by
  intro r hr
  by_cases hk : api_key = ""
  · simp [alpha_vantage_fetch_ohlcv, hk] at hr
  · by_cases hs : resp.status_code = 200
    · simp only [alpha_vantage_fetch_ohlcv, hk, hs] at hr
      simp at hr
      obtain ⟨e, he, hbar⟩ := hr
      exact ⟨e, he, hbar⟩
    · simp [alpha_vantage_fetch_ohlcv, hk, hs] at hr

/-- Every record Twelve Data returns comes from `td_bar` on some response
item. -/
theorem td_records_mem (api_key : String) (rl : RateLimiter)
    (resp : TDResponse) (t i : String) (now : ℚ) (lb : ℤ) :
    ∀ r ∈ (twelve_data_fetch_ohlcv api_key rl resp t i now lb).records,
      ∃ item ∈ resp.values,
        td_bar t i (now - 86400 * (lb : ℚ)) item = some r := by
  intro r hr
  by_cases hk : api_key = ""
  · simp [twelve_data_fetch_ohlcv, hk] at hr
  · by_cases hs : resp.status_code = 200
    · by_cases hv : resp.has_values = false
      · simp [twelve_data_fetch_ohlcv, hk, hs, hv] at hr
      · simp only [twelve_data_fetch_ohlcv, hk, hs, hv] at hr
        simp at hr
        obtain ⟨item, hitem, hbar⟩ := hr
        exact ⟨item, hitem, hbar⟩
    · simp [twelve_data_fetch_ohlcv, hk, hs] at hr

/-- Every record FMP returns comes from `fmp_bar` on some historical item. -/
theorem fmp_records_mem (api_key : String) (rl : RateLimiter)
    (resp : FMPResponse) (t i : String) (now : ℚ) (lb : ℤ) :
    ∀ r ∈ (fmp_fetch_ohlcv api_key rl resp t i now lb).records,
      ∃ item ∈ resp.historical,
        fmp_bar t i (now - 86400 * (lb : ℚ)) item = some r := by
  intro r hr
  by_cases hk : api_key = ""
  · simp [fmp_fetch_ohlcv, hk] at hr
  · by_cases hs : resp.status_code = 200
    · simp only [fmp_fetch_ohlcv, hk, hs] at hr
      simp at hr
      obtain ⟨item, hitem, hbar⟩ := hr
      exact ⟨item, hitem, hbar⟩
    · simp [fmp_fetch_ohlcv, hk, hs] at hr

/-- Every record Polygon returns comes from `polygon_bar` on some result
item. -/
theorem polygon_records_mem (api_key : String) (rl : RateLimiter)
    (resp : PolygonResponse) (t i : String) (now : ℚ) (lb : ℤ) :
    ∀ r ∈ (polygon_fetch_ohlcv api_key rl resp t i now lb).records,
      ∃ item ∈ resp.results, polygon_bar t i item = some r := by
  intro r hr
  by_cases hk : api_key = ""
  · simp [polygon_fetch_ohlcv, hk] at hr
  · by_cases hs : resp.status_code = 200
    · simp only [polygon_fetch_ohlcv, hk, hs] at hr
      simp at hr
      obtain ⟨item, hitem, hbar⟩ := hr
      exact ⟨item, hitem, hbar⟩
    · simp [polygon_fetch_ohlcv, hk, hs] at hr

/-- Every record IEX Cloud returns comes from `iex_bar` on some chart
item. -/
theorem iex_records_mem (api_key : String) (rl : RateLimiter)
    (resp : IEXResponse) (t i : String) (now : ℚ) (lb : ℤ) :
    ∀ r ∈ (iex_cloud_fetch_ohlcv api_key rl resp t i now lb).records,
      ∃ item ∈ resp.chart, iex_bar t i item = some r := by
  intro r hr
  by_cases hk : api_key = ""
  · simp [iex_cloud_fetch_ohlcv, hk] at hr
  · by_cases hs : resp.status_code = 200
    · simp only [iex_cloud_fetch_ohlcv, hk, hs] at hr
      simp at hr
      obtain ⟨item, hitem, hbar⟩ := hr
      exact ⟨item, hitem, hbar⟩
    · simp [iex_cloud_fetch_ohlcv, hk, hs] at hr

/-- Every record Finnhub returns is `finnhub_bar` at some array index. -/
theorem finnhub_records_mem (api_key : String) (rl : RateLimiter)
    (resp : FinnhubResponse) (t i : String) (now : ℚ) (lb : ℤ) :
    ∀ r ∈ (finnhub_fetch_ohlcv api_key rl resp t i now lb).records,
      ∃ idx, idx < resp.t.length ∧ finnhub_bar t i resp idx = r := by
  intro r hr
  by_cases hk : api_key = ""
  · simp [finnhub_fetch_ohlcv, hk] at hr
  · by_cases hs : resp.status_code = 200
    · by_cases hok : resp.s = "ok"
      · simp only [finnhub_fetch_ohlcv, hk, hs, hok] at hr
        simp at hr
        obtain ⟨idx, hidx, hbar⟩ := hr
        exact ⟨idx, hidx, hbar⟩
      · simp [finnhub_fetch_ohlcv, hk, hs, hok] at hr
    · simp [finnhub_fetch_ohlcv, hk, hs] at hr

/-- A bar produced by `av_bar` has a timestamp at or after the cutoff. -/
theorem av_bar_timestamp (t i : String) (cutoff : ℚ) (e : AVEntry)
    (r : OHLCVData) (h : av_bar t i cutoff e = some r) :
    cutoff ≤ r.timestamp := by
  simp only [av_bar] at h
  cases hts : e.dateTs with
  | none => rw [hts] at h; simp at h
  | some ts =>
    rw [hts] at h
    by_cases hcut : ts < cutoff
    · simp [hcut] at h
    · simp only [if_neg hcut, Option.some.injEq] at h
      rw [← h]
      exact le_of_not_lt hcut

/-- A bar produced by `av_bar` from an entry with no "5. adjusted close" key
has `adj_close` equal to `close`. -/
theorem av_bar_adj_close (t i : String) (cutoff : ℚ) (e : AVEntry)
    (r : OHLCVData) (hadj : e.values.adjCloseField = none)
    (h : av_bar t i cutoff e = some r) : r.adj_close = some r.close := by
  simp only [av_bar] at h
  cases hts : e.dateTs with
  | none => rw [hts] at h; simp at h
  | some ts =>
    rw [hts] at h
    by_cases hcut : ts < cutoff
    · simp [hcut] at h
    · simp only [if_neg hcut, Option.some.injEq] at h
      rw [← h]
      simp [hadj]

/-- A bar produced by `td_bar` has a timestamp at or after the cutoff. -/
theorem td_bar_timestamp (t i : String) (cutoff : ℚ) (item : TDItem)
    (r : OHLCVData) (h : td_bar t i cutoff item = some r) :
    cutoff ≤ r.timestamp := by
  simp only [td_bar] at h
  split at h
  · split at h
    · exact absurd h (by simp)
    · rename_i hcut
      simp only [Option.some.injEq] at h
      rw [← h]
      exact le_of_not_lt hcut
  · exact absurd h (by simp)

/-- A bar produced by `td_bar` has `adj_close = none`. -/
theorem td_bar_adj_close (t i : String) (cutoff : ℚ) (item : TDItem)
    (r : OHLCVData) (h : td_bar t i cutoff item = some r) :
    r.adj_close = none := by
  simp only [td_bar] at h
  split at h
  · split at h
    · exact absurd h (by simp)
    · simp only [Option.some.injEq] at h
      rw [← h]
  · exact absurd h (by simp)

/-- A bar produced by `fmp_bar` has a timestamp at or after the cutoff. -/
theorem fmp_bar_timestamp (t i : String) (cutoff : ℚ) (item : FMPItem)
    (r : OHLCVData) (h : fmp_bar t i cutoff item = some r) :
    cutoff ≤ r.timestamp := by
  simp only [fmp_bar] at h
  cases hts : item.dateTs with
  | none => rw [hts] at h; simp at h
  | some ts =>
    rw [hts] at h
    by_cases hcut : ts < cutoff
    · simp [hcut] at h
    · simp only [if_neg hcut, Option.some.injEq] at h
      rw [← h]
      exact le_of_not_lt hcut

/-- A bar produced by `fmp_bar` from an item with no "adjClose" key has
`adj_close` equal to `close`. -/
theorem fmp_bar_adj_close (t i : String) (cutoff : ℚ) (item : FMPItem)
    (r : OHLCVData) (hadj : item.adjCloseField = none)
    (h : fmp_bar t i cutoff item = some r) : r.adj_close = some r.close := by
  simp only [fmp_bar] at h
  cases hts : item.dateTs with
  | none => rw [hts] at h; simp at h
  | some ts =>
    rw [hts] at h
    by_cases hcut : ts < cutoff
    · simp [hcut] at h
    · simp only [if_neg hcut, Option.some.injEq] at h
      rw [← h]
      simp [hadj]

/-- A bar produced by `iex_bar` from an item with no "fClose" key has
`adj_close` equal to `close`. -/
theorem iex_bar_adj_close (t i : String) (item : IEXItem) (r : OHLCVData)
    (hadj : item.fCloseField = none) (h : iex_bar t i item = some r) :
    r.adj_close = some r.close := by
  simp only [iex_bar] at h
  cases hts : item.dateTs with
  | none => rw [hts] at h; simp at h
  | some ts =>
    rw [hts] at h
    simp only [Option.some.injEq] at h
    rw [← h]
    simp [hadj]

/-- A bar produced by `polygon_bar` has `adj_close = none`. -/
theorem polygon_bar_adj_close (t i : String) (item : PolygonItem)
    (r : OHLCVData) (h : polygon_bar t i item = some r) :
    r.adj_close = none := by
  simp only [polygon_bar] at h
  split at h
  · simp only [Option.some.injEq] at h
    rw [← h]
  · exact absurd h (by simp)

/-- Reading a list back out by index: mapping `getD` over the index range
reproduces the list. -/
theorem range_map_getD {α : Type} (d : α) (l : List α) :
    (List.range l.length).map (fun idx => l.getD idx d) = l := by
  induction l with
  | nil => rfl
  | cons x xs ih =>
    rw [List.length_cons, List.range_succ_eq_map, List.map_cons, List.map_map]
    simp only [List.getD_cons_zero]
    refine congrArg (List.cons x) ?_
    refine Eq.trans (List.map_congr_left fun a _ => ?_) ih
    simp [Function.comp, List.getD_cons_succ]

/-- A stable mergeSort by `byTimestamp` yields a list whose timestamps are
non-strictly ascending. -/
theorem sorted_byTimestamp_mergeSort (l : List OHLCVData) :
    List.Sorted (fun a b : OHLCVData => a.timestamp ≤ b.timestamp)
      (l.mergeSort byTimestamp) := by
  have h := @List.sorted_mergeSort OHLCVData byTimestamp
    (fun a b c hab hbc => by
      simp only [byTimestamp, decide_eq_true_eq] at *
      exact le_trans hab hbc)
    (fun a b => by
      simp only [byTimestamp, Bool.or_eq_true, decide_eq_true_eq]
      exact le_total a.timestamp b.timestamp)
    l
  exact h.imp (fun hab => by simpa [byTimestamp] using hab)

/-- Counterexample for C3: a Finnhub response with timestamps [5, 5, 3]
(status 200, "s" = "ok") yields records whose timestamps are neither
strictly ascending nor duplicate-free — the provider neither sorts nor
deduplicates. -/
theorem finnhub_not_sorted_counterexample :
    ¬ List.Pairwise (fun a b : OHLCVData => a.timestamp < b.timestamp)
        (finnhub_fetch_ohlcv "key" rlSixty finnhubRespDup "aapl" "1d" 1000
            30).records := by
  decide

/-- Claim C3 (amended): the providers that sort — Alpha Vantage, Twelve Data
and FMP — return lists non-strictly ascending by timestamp (duplicates may
survive, since sorting does not deduplicate); Finnhub, Polygon and IEX Cloud
apply no sort: on a well-formed response Finnhub returns exactly the
response's "t" timestamps in order, and Polygon and IEX Cloud return the
in-order image of their response arrays — so for those three, sortedness and
uniqueness hold only when the response already provides them. -/
theorem sorting_providers_sorted :
    (∀ (key : String) (rl : RateLimiter) (resp : AVResponse) (t i : String)
        (now : ℚ) (lb : ℤ),
        List.Sorted (fun a b : OHLCVData => a.timestamp ≤ b.timestamp)
          (alpha_vantage_fetch_ohlcv key rl resp t i now lb).records) ∧
      (∀ (key : String) (rl : RateLimiter) (resp : TDResponse)
          (t i : String) (now : ℚ) (lb : ℤ),
        List.Sorted (fun a b : OHLCVData => a.timestamp ≤ b.timestamp)
          (twelve_data_fetch_ohlcv key rl resp t i now lb).records) ∧
      (∀ (key : String) (rl : RateLimiter) (resp : FMPResponse)
          (t i : String) (now : ℚ) (lb : ℤ),
        List.Sorted (fun a b : OHLCVData => a.timestamp ≤ b.timestamp)
          (fmp_fetch_ohlcv key rl resp t i now lb).records) ∧
      (∀ (key : String) (rl : RateLimiter) (resp : FinnhubResponse)
          (t i : String) (now : ℚ) (lb : ℤ),
        key ≠ "" → resp.status_code = 200 → resp.s = "ok" →
          (finnhub_fetch_ohlcv key rl resp t i now lb).records.map
              OHLCVData.timestamp = resp.t) ∧
      (∀ (key : String) (rl : RateLimiter) (resp : PolygonResponse)
          (t i : String) (now : ℚ) (lb : ℤ),
        key ≠ "" → resp.status_code = 200 →
          (polygon_fetch_ohlcv key rl resp t i now lb).records =
            resp.results.filterMap (polygon_bar t i)) ∧
      (∀ (key : String) (rl : RateLimiter) (resp : IEXResponse)
          (t i : String) (now : ℚ) (lb : ℤ),
        key ≠ "" → resp.status_code = 200 →
          (iex_cloud_fetch_ohlcv key rl resp t i now lb).records =
            resp.chart.filterMap (iex_bar t i)) := by
  refine ⟨fun key rl resp t i now lb => ?_, fun key rl resp t i now lb => ?_,
    fun key rl resp t i now lb => ?_,
    fun key rl resp t i now lb hk hs hok => ?_,
    fun key rl resp t i now lb hk hs => ?_,
    fun key rl resp t i now lb hk hs => ?_⟩
  · by_cases hk : key = ""
    · simp [alpha_vantage_fetch_ohlcv, hk]
    · by_cases hs : resp.status_code = 200
      · simp only [alpha_vantage_fetch_ohlcv, hk, hs]
        simp
        exact sorted_byTimestamp_mergeSort _
      · simp [alpha_vantage_fetch_ohlcv, hk, hs]
  · by_cases hk : key = ""
    · simp [twelve_data_fetch_ohlcv, hk]
    · by_cases hs : resp.status_code = 200
      · by_cases hv : resp.has_values = false
        · simp [twelve_data_fetch_ohlcv, hk, hs, hv]
        · simp only [twelve_data_fetch_ohlcv, hk, hs, hv]
          simp
          exact sorted_byTimestamp_mergeSort _
      · simp [twelve_data_fetch_ohlcv, hk, hs]
  · by_cases hk : key = ""
    · simp [fmp_fetch_ohlcv, hk]
    · by_cases hs : resp.status_code = 200
      · simp only [fmp_fetch_ohlcv, hk, hs]
        simp
        exact sorted_byTimestamp_mergeSort _
      · simp [fmp_fetch_ohlcv, hk, hs]
  · simp [finnhub_fetch_ohlcv, hk, hs, hok, List.map_map, finnhub_bar,
      Function.comp]
    exact range_map_getD 0 resp.t
  · simp [polygon_fetch_ohlcv, hk, hs]
  · simp [iex_cloud_fetch_ohlcv, hk, hs]

/-- Witness for C3 (amended): on the fixture Finnhub response (nonempty key,
status 200, "s" = "ok") the returned timestamps are exactly the response's
"t" array [5, 5, 3], in order. -/
theorem sorting_providers_sorted_witness :
    (finnhub_fetch_ohlcv "key" rlSixty finnhubRespDup "aapl" "1d" 1000
        30).records.map OHLCVData.timestamp = finnhubRespDup.t :=
  sorting_providers_sorted.2.2.2.1 "key" rlSixty finnhubRespDup "aapl" "1d"
    1000 30 (by decide) (by decide) (by decide)

/-- Counterexample for C4: the Finnhub response never carries an adjusted
close, yet its record has `adj_close = None`, not `adj_close = close`. -/
theorem finnhub_adj_close_counterexample :
    ¬ (∀ r ∈ (finnhub_fetch_ohlcv "key" rlSixty finnhubRespOne "aapl" "1d"
          1000 30).records, r.adj_close = some r.close) := by
  decide

/-- Claim C4 (amended): when the response carries no distinct adjusted-close
value, Alpha Vantage, FMP and IEX Cloud default `adj_close` to `close`;
Finnhub, Polygon and Twelve Data never set `adj_close`, leaving it `None`. -/
theorem adjusted_close_defaulting :
    (∀ (key : String) (rl : RateLimiter) (resp : AVResponse) (t i : String)
        (now : ℚ) (lb : ℤ),
        (∀ e ∈ resp.time_series, e.values.adjCloseField = none) →
        ∀ r ∈ (alpha_vantage_fetch_ohlcv key rl resp t i now lb).records,
          r.adj_close = some r.close) ∧
      (∀ (key : String) (rl : RateLimiter) (resp : FMPResponse)
          (t i : String) (now : ℚ) (lb : ℤ),
        (∀ item ∈ resp.historical, item.adjCloseField = none) →
        ∀ r ∈ (fmp_fetch_ohlcv key rl resp t i now lb).records,
          r.adj_close = some r.close) ∧
      (∀ (key : String) (rl : RateLimiter) (resp : IEXResponse)
          (t i : String) (now : ℚ) (lb : ℤ),
        (∀ item ∈ resp.chart, item.fCloseField = none) →
        ∀ r ∈ (iex_cloud_fetch_ohlcv key rl resp t i now lb).records,
          r.adj_close = some r.close) ∧
      (∀ (key : String) (rl : RateLimiter) (resp : FinnhubResponse)
          (t i : String) (now : ℚ) (lb : ℤ),
        ∀ r ∈ (finnhub_fetch_ohlcv key rl resp t i now lb).records,
          r.adj_close = none) ∧
      (∀ (key : String) (rl : RateLimiter) (resp : PolygonResponse)
          (t i : String) (now : ℚ) (lb : ℤ),
        ∀ r ∈ (polygon_fetch_ohlcv key rl resp t i now lb).records,
          r.adj_close = none) ∧
      (∀ (key : String) (rl : RateLimiter) (resp : TDResponse)
          (t i : String) (now : ℚ) (lb : ℤ),
        ∀ r ∈ (twelve_data_fetch_ohlcv key rl resp t i now lb).records,
          r.adj_close = none) := by
  refine ⟨?_, ?_, ?_, ?_, ?_, ?_⟩
  · intro key rl resp t i now lb hadj r hr
    obtain ⟨e, he, hbar⟩ := av_records_mem key rl resp t i now lb r hr
    exact av_bar_adj_close t i _ e r (hadj e he) hbar
  · intro key rl resp t i now lb hadj r hr
    obtain ⟨item, hitem, hbar⟩ := fmp_records_mem key rl resp t i now lb r hr
    exact fmp_bar_adj_close t i _ item r (hadj item hitem) hbar
  · intro key rl resp t i now lb hadj r hr
    obtain ⟨item, hitem, hbar⟩ := iex_records_mem key rl resp t i now lb r hr
    exact iex_bar_adj_close t i item r (hadj item hitem) hbar
  · intro key rl resp t i now lb r hr
    obtain ⟨idx, _hidx, hbar⟩ :=
      finnhub_records_mem key rl resp t i now lb r hr
    rw [← hbar]
    rfl
  · intro key rl resp t i now lb r hr
    obtain ⟨item, _hitem, hbar⟩ :=
      polygon_records_mem key rl resp t i now lb r hr
    exact polygon_bar_adj_close t i item r hbar
  · intro key rl resp t i now lb r hr
    obtain ⟨item, _hitem, hbar⟩ := td_records_mem key rl resp t i now lb r hr
    exact td_bar_adj_close t i _ item r hbar

/-- Witness for C4 (amended): the IEX Cloud record built from a chart item
with no "fClose" key has `adj_close` equal to its `close`. -/
theorem adjusted_close_defaulting_witness :
    iexRecStale.adj_close = some iexRecStale.close :=
  adjusted_close_defaulting.2.2.1 "key" rlHundred iexRespStale "AAPL" "1d"
    8640000 10 (by decide) iexRecStale (by decide)

/-- Counterexample for C7: IEX Cloud, asked for a 10-day lookback at
`now` = day 100, returns a bar dated day 80 — it does not filter bars older
than `now - lookback_days` (its lookback only picks the coarse range
parameter of the request URL). -/
theorem iex_cloud_stale_bar_counterexample :
    ¬ (∀ r ∈ (iex_cloud_fetch_ohlcv "key" rlHundred iexRespStale "AAPL" "1d"
          8640000 10).records,
        (8640000 : ℚ) - 86400 * ((10 : ℤ) : ℚ) ≤ r.timestamp) := by
  intro h
  have hmem : iexRecStale ∈ (iex_cloud_fetch_ohlcv "key" rlHundred
      iexRespStale "AAPL" "1d" 8640000 10).records := by decide
  have hle := h iexRecStale hmem
  norm_num [iexRecStale] at hle

/-- Claim C7 (amended): Alpha Vantage, Twelve Data and FMP filter out every
bar older than `now - lookback_days`; Finnhub, Polygon and IEX Cloud perform
no such local filtering (they restrict only the request's date range), so
stale bars present in their responses are returned. -/
theorem lookback_filter_providers :
    (∀ (key : String) (rl : RateLimiter) (resp : AVResponse) (t i : String)
        (now : ℚ) (lb : ℤ),
        ∀ r ∈ (alpha_vantage_fetch_ohlcv key rl resp t i now lb).records,
          now - 86400 * (lb : ℚ) ≤ r.timestamp) ∧
      (∀ (key : String) (rl : RateLimiter) (resp : TDResponse)
          (t i : String) (now : ℚ) (lb : ℤ),
        ∀ r ∈ (twelve_data_fetch_ohlcv key rl resp t i now lb).records,
          now - 86400 * (lb : ℚ) ≤ r.timestamp) ∧
      (∀ (key : String) (rl : RateLimiter) (resp : FMPResponse)
          (t i : String) (now : ℚ) (lb : ℤ),
        ∀ r ∈ (fmp_fetch_ohlcv key rl resp t i now lb).records,
          now - 86400 * (lb : ℚ) ≤ r.timestamp) := by
  refine ⟨?_, ?_, ?_⟩
  · intro key rl resp t i now lb r hr
    obtain ⟨e, _he, hbar⟩ := av_records_mem key rl resp t i now lb r hr
    exact av_bar_timestamp t i _ e r hbar
  · intro key rl resp t i now lb r hr
    obtain ⟨item, _hitem, hbar⟩ := td_records_mem key rl resp t i now lb r hr
    exact td_bar_timestamp t i _ item r hbar
  · intro key rl resp t i now lb r hr
    obtain ⟨item, _hitem, hbar⟩ := fmp_records_mem key rl resp t i now lb r hr
    exact fmp_bar_timestamp t i _ item r hbar

/-- Witness for C7 (amended): the in-range Alpha Vantage record of `avRespW`
(dated day 95, lookback 10 days from day 100) is at or after the cutoff. -/
theorem lookback_filter_providers_witness :
    (8640000 : ℚ) - 86400 * ((10 : ℤ) : ℚ) ≤ avRecW.timestamp :=
  lookback_filter_providers.1 "key" rlFive avRespW "AAPL" "1d" 8640000 10
    avRecW
    (by
      have hbar : av_bar "AAPL" "1d" ((8640000 : ℚ) - 86400 * ((10 : ℤ) : ℚ))
          avEntryW = some avRecW := by
        simp only [av_bar, avEntryW, avValsW, avRecW]
        rw [if_neg (by norm_num)]
        rfl
      show avRecW ∈ (alpha_vantage_fetch_ohlcv "key" rlFive avRespW "AAPL"
        "1d" 8640000 10).records
      simp only [alpha_vantage_fetch_ohlcv]
      rw [if_neg (by decide), if_neg (by decide)]
      exact List.mem_mergeSort.mpr
        (List.mem_filterMap.mpr ⟨avEntryW, List.mem_cons_self _ _, hbar⟩))

/-! ## Availability and credential gating (claims C8, C9) -/

/-- A string distinct from `s` is never a member of the conditional
singleton `if c then [s] else []`. -/
theorem not_mem_if_singleton {x s : String} (c : Prop) [Decidable c]
    (h : x ≠ s) : x ∉ (if c then [s] else []) := by
  split_ifs
  · simp [h]
  · simp

/-- Counterexample for C8: an `AlphaVantageConnector` constructed with an
empty api_key — a credential-requiring provider without its credential —
still has `is_available()` return `True`, since no subclass overrides the
base method; the claim says it would be `False`. -/
theorem is_available_counterexample : ¬ (is_available "" = false) := by
  decide

/-- Claim C8 (amended): `is_available()` returns `True` for every connector
instance regardless of credentials; credential gating happens instead at
module initialisation — a keyed provider whose environment credential is
empty gets a `None` singleton and is therefore absent from
`get_available_connectors`. -/
theorem availability_gating :
    (∀ key : String, is_available key = true) ∧
      ∀ e : Env,
        (e.alpha_vantage_key = "" →
          "alpha_vantage" ∉ get_available_connector_names e) ∧
        (e.finnhub_key = "" →
          "finnhub" ∉ get_available_connector_names e) ∧
        (e.twelve_data_key = "" →
          "twelve_data" ∉ get_available_connector_names e) ∧
        (e.fmp_key = "" → "fmp" ∉ get_available_connector_names e) ∧
        (e.polygon_key = "" →
          "polygon" ∉ get_available_connector_names e) ∧
        (e.iex_cloud_key = "" →
          "iex_cloud" ∉ get_available_connector_names e) := by
  refine ⟨fun _ => rfl, fun e => ⟨?_, ?_, ?_, ?_, ?_, ?_⟩⟩ <;>
    intro h <;>
    simp only [get_available_connector_names, h, ne_eq, not_true_eq_false,
      if_false, List.append_nil, List.nil_append, List.mem_append,
      not_or] <;>
    refine ⟨⟨⟨⟨⟨?_, ?_⟩, ?_⟩, ?_⟩, ?_⟩, ?_⟩ <;>
    exact not_mem_if_singleton _ (by decide)

/-- Witness for C8 (amended): with no credential configured, alpha_vantage
is absent from the registry. -/
theorem availability_gating_witness :
    "alpha_vantage" ∉ get_available_connector_names envNone :=
  (availability_gating.2 envNone).1 rfl

/-- Claim C9: every credential-requiring connector constructed with an empty
api_key returns the empty list from `fetch_ohlcv` immediately: no outbound
HTTP request is issued and the rate limiter's window state is unchanged
(the guard precedes both `wait_if_needed` and the request). -/
theorem empty_api_key_no_effects :
    (∀ (rl : RateLimiter) (resp : AVResponse) (t i : String) (now : ℚ)
        (lb : ℤ),
        alpha_vantage_fetch_ohlcv "" rl resp t i now lb = ⟨[], 0, rl⟩) ∧
      (∀ (rl : RateLimiter) (resp : FinnhubResponse) (t i : String)
          (now : ℚ) (lb : ℤ),
        finnhub_fetch_ohlcv "" rl resp t i now lb = ⟨[], 0, rl⟩) ∧
      (∀ (rl : RateLimiter) (resp : TDResponse) (t i : String) (now : ℚ)
          (lb : ℤ),
        twelve_data_fetch_ohlcv "" rl resp t i now lb = ⟨[], 0, rl⟩) ∧
      (∀ (rl : RateLimiter) (resp : FMPResponse) (t i : String) (now : ℚ)
          (lb : ℤ),
        fmp_fetch_ohlcv "" rl resp t i now lb = ⟨[], 0, rl⟩) ∧
      (∀ (rl : RateLimiter) (resp : PolygonResponse) (t i : String)
          (now : ℚ) (lb : ℤ),
        polygon_fetch_ohlcv "" rl resp t i now lb = ⟨[], 0, rl⟩) ∧
      (∀ (rl : RateLimiter) (resp : IEXResponse) (t i : String) (now : ℚ)
          (lb : ℤ),
        iex_cloud_fetch_ohlcv "" rl resp t i now lb = ⟨[], 0, rl⟩) := by
  refine ⟨?_, ?_, ?_, ?_, ?_, ?_⟩ <;> intro rl resp t i now lb <;> rfl
